import Mathlib

/-!
Verification of the query/cache/resolution layer of a mod-registry client
(`ficsitApp.ts`): semantic-version selection, time-boxed caching, the
debug-gated temporary-mod overlay, and error normalization.

Semantic versions and the external `semver` library's `compare`/`satisfies`
are modelled over major/minor/patch triples with lexicographic precedence;
range constraints are modelled as atomic bound comparisons (lists of
constraints conjoin, matching `versionSatisfiesAll`).
-/

/-- A semantic version, modelled as its major/minor/patch numbers with
lexicographic precedence (the spec requires all comparisons to use
semantic-version ordering). -/
structure SemVer where
  major : Nat
  minor : Nat
  patch : Nat
deriving DecidableEq, Repr

namespace SemVer

/-- The `semver` library's `compare`: -1 / 0 / 1 by precedence. -/
def compare (a b : SemVer) : Int :=
  if a.major < b.major then -1
  else if b.major < a.major then 1
  else if a.minor < b.minor then -1
  else if b.minor < a.minor then 1
  else if a.patch < b.patch then -1
  else if b.patch < a.patch then 1
  else 0

/-- Boolean `≤` on semantic versions (lexicographic). -/
def leb (a b : SemVer) : Bool :=
  a.major < b.major ||
    (a.major == b.major &&
      (a.minor < b.minor || (a.minor == b.minor && a.patch ≤ b.patch)))

/-- Boolean `<` on semantic versions (lexicographic). -/
def ltb (a b : SemVer) : Bool :=
  a.major < b.major ||
    (a.major == b.major &&
      (a.minor < b.minor || (a.minor == b.minor && a.patch < b.patch)))

theorem leb_total (a b : SemVer) : leb a b || leb b a := by
  simp only [leb, Bool.or_eq_true, Bool.and_eq_true, beq_iff_eq,
    decide_eq_true_eq]
  omega

theorem leb_trans (a b c : SemVer) (h1 : leb a b) (h2 : leb b c) : leb a c := by
  simp only [leb, Bool.or_eq_true, Bool.and_eq_true, beq_iff_eq,
    decide_eq_true_eq] at h1 h2 ⊢
  omega

theorem leb_refl (a : SemVer) : leb a a := by
  simp [leb]

theorem ltb_iff_not_leb (a b : SemVer) : ltb a b ↔ ¬ leb b a := by
  simp only [ltb, leb, Bool.or_eq_true, Bool.and_eq_true, beq_iff_eq,
    decide_eq_true_eq]
  omega

theorem ltb_leb (a b : SemVer) (h : ltb a b) : leb a b := by
  simp only [ltb, leb, Bool.or_eq_true, Bool.and_eq_true, beq_iff_eq,
    decide_eq_true_eq] at h ⊢
  omega

theorem compare_nonneg_iff (a b : SemVer) : 0 ≤ compare a b ↔ leb b a := by
  simp only [compare, leb, Bool.or_eq_true, Bool.and_eq_true, beq_iff_eq,
    decide_eq_true_eq]
  split_ifs <;> omega

end SemVer

/-- A semantic-version range constraint, modelled as an atomic bound
comparison; a list of constraints is a conjunction. The `semver` library's
`satisfies` is modelled by `Constraint.sat`. -/
inductive Constraint where
  | ge (v : SemVer)
  | gt (v : SemVer)
  | le (v : SemVer)
  | lt (v : SemVer)
  | eq (v : SemVer)
deriving DecidableEq, Repr

/-- Model of `satisfies(version, range)` of the `semver` library, over the
constraint model. -/
def Constraint.sat (version : SemVer) : Constraint → Bool
  | .ge v => SemVer.leb v version
  | .gt v => SemVer.ltb v version
  | .le v => SemVer.leb version v
  | .lt v => SemVer.ltb version v
  | .eq v => version == v

/-- Modelled from the spec: `versionSatisfiesAll` lives in `utils.ts`, which
is not part of the provided sources; per the spec, "multiple constraints must
all hold simultaneously (logical AND)", i.e. the version satisfies every
constraint in the list. -/
def versionSatisfiesAll (version : SemVer) (constraints : List Constraint) : Bool :=
  constraints.all (Constraint.sat version)

/-- Stable insertion step for the model of `Array.prototype.sort` with a
comparator: `x` is placed before the first element it may precede. -/
def sortInsert (le : α → α → Bool) (x : α) : List α → List α
  | [] => [x]
  | y :: ys => if le x y then x :: y :: ys else y :: sortInsert le x ys

/-- Model of JavaScript's stable `Array.prototype.sort` under the ordering
induced by a comparator: a stable sort placing `a` before `b` when
`le a b`. -/
def jsSort (le : α → α → Bool) : List α → List α
  | [] => []
  | x :: xs => sortInsert le x (jsSort le xs)

theorem sortInsert_perm (le : α → α → Bool) (x : α) (l : List α) :
    List.Perm (sortInsert le x l) (x :: l) := by
  induction l with
  | nil => simp [sortInsert]
  | cons y ys ih =>
    simp only [sortInsert]
    split
    · exact List.Perm.refl _
    · exact ((ih.cons y).trans (List.Perm.swap x y ys))

theorem jsSort_perm (le : α → α → Bool) (l : List α) :
    List.Perm (jsSort le l) l := by
  induction l with
  | nil => simp [jsSort]
  | cons x xs ih =>
    exact (sortInsert_perm le x (jsSort le xs)).trans (ih.cons x)

theorem sortInsert_pairwise (le : α → α → Bool)
    (trans : ∀ a b c, le a b → le b c → le a c)
    (total : ∀ a b, le a b || le b a) (x : α) (l : List α)
    (h : List.Pairwise (fun a b => le a b = true) l) :
    List.Pairwise (fun a b => le a b = true) (sortInsert le x l) := by
  induction l with
  | nil => simp [sortInsert]
  | cons y ys ih =>
    rcases h with _ | ⟨hy, hys⟩
    simp only [sortInsert]
    split <;> rename_i hle
    · constructor
      · intro b hb
        rcases List.mem_cons.mp hb with hb | hb
        · exact hb ▸ hle
        · exact trans x y b hle (hy b hb)
      · exact List.Pairwise.cons hy hys
    · constructor
      · intro b hb
        have hmem := (sortInsert_perm le x ys).mem_iff.mp hb
        rcases List.mem_cons.mp hmem with hb | hb
        · rw [hb]
          rcases Bool.or_eq_true _ _ |>.mp (total x y) with h | h
          · exact absurd h hle
          · exact h
        · exact hy b hb
      · exact ih hys

theorem jsSort_pairwise (le : α → α → Bool)
    (trans : ∀ a b c, le a b → le b c → le a c)
    (total : ∀ a b, le a b || le b a) (l : List α) :
    List.Pairwise (fun a b => le a b = true) (jsSort le l) := by
  induction l with
  | nil => simp [jsSort]
  | cons x xs ih => exact sortInsert_pairwise le trans total x _ ih

/-- The head of a `jsSort`-ed list is `le`-before every element of the
original list. -/
theorem jsSort_head_le (le : α → α → Bool)
    (trans : ∀ a b c, le a b → le b c → le a c)
    (total : ∀ a b, le a b || le b a) (l : List α) (h r : α)
    (hh : (jsSort le l).head? = some h) (hr : r ∈ l) : le h r := by
  have hmem : r ∈ jsSort le l := (jsSort_perm le l).mem_iff.mpr hr
  have hpw := jsSort_pairwise le trans total l
  cases hsort : jsSort le l with
  | nil => rw [hsort] at hmem; exact absurd hmem (List.not_mem_nil r)
  | cons a as =>
    rw [hsort] at hh hmem hpw
    simp only [List.head?_cons, Option.some.injEq] at hh
    subst hh
    rcases List.mem_cons.mp hmem with hra | hmem2
    · rw [hra]
      have h2 := total a a
      rw [Bool.or_self] at h2
      exact h2
    · rcases hpw with _ | ⟨hfirst, _⟩
      exact hfirst r hmem2

theorem jsSort_head_mem (le : α → α → Bool) (l : List α) (h : α)
    (hh : (jsSort le l).head? = some h) : h ∈ l := by
  apply (jsSort_perm le l).mem_iff.mp
  cases hsort : jsSort le l with
  | nil => rw [hsort] at hh; exact absurd hh (by simp)
  | cons a as =>
    rw [hsort] at hh
    simp only [List.head?_cons, Option.some.injEq] at hh
    simp [hh]

/-! ## Data model (`ficsitApp.ts` interfaces) -/

/-- Release maturity tag of a version. -/
inductive Stability where
  | alpha
  | beta
  | release
deriving DecidableEq, Repr

/-- `FicsitAppUser`. -/
structure FicsitAppUser where
  username : String
  avatar : String
deriving DecidableEq, Repr

/-- `FicsitAppAuthor`. -/
structure FicsitAppAuthor where
  mod_id : String
  user : FicsitAppUser
  role : String
deriving DecidableEq, Repr

/-- `FicsitAppVersion`. Version strings are modelled as parsed semantic
versions; date parsing is external, so date-like fields stay strings. -/
structure FicsitAppVersion where
  mod_id : String
  version : SemVer
  sml_version : SemVer
  changelog : String
  downloads : String
  stability : Stability
  link : String
deriving DecidableEq, Repr

/-- `FicsitAppMod`. `last_version_date` is `Option String`: the raw JSON
date string, or `none` for the `null` produced by the response coercion. -/
structure FicsitAppMod where
  id : String
  name : String
  short_description : String
  full_description : String
  logo : String
  source_url : String
  views : Nat
  downloads : Nat
  hotness : Nat
  popularity : Nat
  last_version_date : Option String
  authors : List FicsitAppAuthor
  versions : List FicsitAppVersion
deriving DecidableEq, Repr

/-- `FicsitAppSMLVersion` (a loader version). -/
structure FicsitAppSMLVersion where
  id : String
  version : SemVer
  satisfactory_version : Nat
  stability : Stability
  link : String
  changelog : String
  date : Option String
  bootstrap_version : SemVer
deriving DecidableEq, Repr

/-- `FicsitAppBootstrapperVersion`. -/
structure FicsitAppBootstrapperVersion where
  id : String
  version : SemVer
  satisfactory_version : Nat
  stability : Stability
  link : String
  changelog : String
  date : Option String
deriving DecidableEq, Repr

/-- Model of the per-element coercion `x ? new Date(x) : null`: a falsy raw
value (absent or empty string) becomes `null`; otherwise the date value is
kept (date parsing is external to this layer). -/
def coerceDate : Option String → Option String
  | none => none
  | some s => if s = "" then none else some s

/-! ## Errors, transport, query executor -/

/-- A transport-level failure: the two ways the `try` block of
`fiscitApiQuery` can throw. -/
inductive TransportError where
  | networkFailure (msg : String)
  | malformedResponse (body : String)
deriving DecidableEq, Repr

/-- An error value carried in the `errors` field of a query result. -/
inductive ApiError where
  | networkError (msg : String)
  | registryErrors (msgs : List String)
deriving DecidableEq, Repr

/-- The value `fiscitApiQuery` evaluates to: the `data` member of the parsed
response (which may itself carry an `errors` field and the per-operation
payload), or the synthetic network-error value built in the `catch` block.
`α` is the operation-specific payload shape. -/
structure ApiResult (α : Type) where
  errors : Option ApiError
  payload : Option α
deriving DecidableEq, Repr

/-- A successfully transported and parsed response: its `data` member. -/
structure GraphQLResponse (α : Type) where
  data : ApiResult α
deriving DecidableEq, Repr

/-- `fiscitApiQuery`: on a successful round trip returns `response.data`;
on any transport failure (network error or malformed body) returns the
uniform value whose `errors` field holds the `NetworkError`. -/
def fiscitApiQuery (transport : Except TransportError (GraphQLResponse α)) :
    ApiResult α :=
  match transport with
  | Except.ok response => response.data
  | Except.error _ =>
      { errors := some (ApiError.networkError "Network error. Please try again later.")
        payload := none }

/-- An exception thrown by a registry-client operation. -/
inductive FicsitError where
  | apiErrors (e : ApiError)
  | modNotFound (msg : String)
  | typeError (msg : String)
deriving DecidableEq, Repr

/-! ## Cache and process state -/

/-- The payload stored under one cache key (the cache is heterogeneous in
the source; this sums the shapes actually stored). -/
inductive CacheData where
  | link (url : String)
  | mods (ms : List FicsitAppMod)
  | mod (m : FicsitAppMod)
  | versions (vs : List FicsitAppVersion)
  | smlVersions (vs : List FicsitAppSMLVersion)
  | bootstrapperVersions (vs : List FicsitAppBootstrapperVersion)
deriving DecidableEq, Repr

/-- `FicsitAppFetch`: one cache entry, a fetch timestamp plus payload. -/
structure FicsitAppFetch where
  time : Nat
  data : CacheData
deriving DecidableEq, Repr

/-- The module-level mutable state of `ficsitApp.ts`: the debug flag, the
temporary-mod overlay, and the keyed cache. Time is epoch milliseconds. -/
structure AppState where
  useTempMods : Bool
  tempMods : List FicsitAppMod
  cachedFetch : String → Option FicsitAppFetch

/-- `fetchCooldown = 5 * 60 * 1000` milliseconds. -/
def fetchCooldown : Nat := 5 * 60 * 1000

/-- `cooldownPassed(action)`: true when there is no entry, or the entry's
age strictly exceeds the cooldown. -/
def cooldownPassed (st : AppState) (now : Nat) (action : String) : Bool :=
  match st.cachedFetch action with
  | some f => now - f.time > fetchCooldown
  | none => true

/-- `getCache(action)`: the stored payload, if any entry exists (staleness
is not consulted here). -/
def getCache (st : AppState) (action : String) : Option CacheData :=
  (st.cachedFetch action).map FicsitAppFetch.data

/-- `setCache(action, data)`: store the payload under the key with the
current time. -/
def setCache (st : AppState) (now : Nat) (action : String) (data : CacheData) :
    AppState :=
  { st with cachedFetch := fun k =>
      if k = action then some { time := now, data := data } else st.cachedFetch k }

/-! ## Temporary mod overlay -/

/-- `setUseTempMods(enable)`. -/
def setUseTempMods (st : AppState) (enable : Bool) : AppState :=
  { st with useTempMods := enable }

/-- `addTempMod(mod)`: appends when the debug flag is on, otherwise warns
and leaves the state unchanged. -/
def addTempMod (st : AppState) (mod : FicsitAppMod) : AppState :=
  if st.useTempMods then
    { st with tempMods := st.tempMods ++ [mod] }
  else
    st

/-- Helper modelling `tempMods.find(...)` followed by an in-place
`versions.push`: the first mod whose id matches the version's `mod_id` gets
the version appended; no-op when no mod matches. -/
def pushVersionToFirst (version : FicsitAppVersion) :
    List FicsitAppMod → List FicsitAppMod
  | [] => []
  | m :: rest =>
      if m.id == version.mod_id then
        { m with versions := m.versions ++ [version] } :: rest
      else
        m :: pushVersionToFirst version rest

/-- `addTempModVersion(version)`. -/
def addTempModVersion (st : AppState) (version : FicsitAppVersion) : AppState :=
  if st.useTempMods then
    { st with tempMods := pushVersionToFirst version st.tempMods }
  else
    st

/-- Modelled from the spec: `removeArrayElementWhere` lives in `utils.ts`,
which is not in the provided sources; per the spec, `removeMod` "deletes the
overlay mod with that identifier, if present", i.e. elements matching the
predicate are removed in place. -/
def removeArrayElementWhere (p : α → Bool) (l : List α) : List α :=
  l.filter (fun x => !(p x))

/-- `removeTempMod(modID)`. -/
def removeTempMod (st : AppState) (modID : String) : AppState :=
  if st.useTempMods then
    { st with tempMods := removeArrayElementWhere (fun mod => mod.id == modID) st.tempMods }
  else
    st

/-- Helper modelling `tempMods.find(...)` followed by an in-place removal
from that mod's `versions`: the first mod with the given id has matching
versions removed; no-op when no mod matches. -/
def removeVersionFromFirst (modID : String) (version : SemVer) :
    List FicsitAppMod → List FicsitAppMod
  | [] => []
  | m :: rest =>
      if m.id == modID then
        { m with versions :=
            removeArrayElementWhere (fun modVersion => modVersion.version == version) m.versions } :: rest
      else
        m :: removeVersionFromFirst modID version rest

/-- `removeTempModVersion(modID, version)`. -/
def removeTempModVersion (st : AppState) (modID : String) (version : SemVer) :
    AppState :=
  if st.useTempMods then
    { st with tempMods := removeVersionFromFirst modID version st.tempMods }
  else
    st

/-! ## Registry client operations -/

/-- `API_URL` base for resolved links. -/
def API_URL : String := "https://api.ficsit.app"

/-- Modelled from the spec: `SMLModID` is exported by `smlHandler.ts`, whose
constant definitions are not in the provided sources; the spec's end-to-end
property invokes `findAllVersionsMatchingAll("SML", ...)` for the loader, so
the loader component identifier is the string SML. -/
def SMLModID : String := "SML"

/-- Modelled from the spec: `BootstrapperModID` is exported by
`bootstrapperHandler.ts`, not in the provided sources; the spec names the
second loader component "bootstrapper". -/
def BootstrapperModID : String := "bootstrapper"

/-- Modelled from the spec: `minSMLVersion` is exported by `smlHandler.ts`,
not in the provided sources; the spec fixes a single "minimum supported
loader version" constant, and the fetch-time loader filter in
`getAvailableSMLVersions` pins the floor at `2.0.0`. -/
def minSMLVersion : SemVer := { major := 2, minor := 0, patch := 0 }

/-- Response payload shape of the `getModDownloadLink` query:
`getMod.version.link`. -/
structure DownloadLinkVersion where
  link : String
deriving DecidableEq, Repr

/-- Middle layer of the `getModDownloadLink` response. -/
structure DownloadLinkMod where
  version : Option DownloadLinkVersion
deriving DecidableEq, Repr

/-- Response data of the `getModDownloadLink` query. -/
structure DownloadLinkData where
  getMod : Option DownloadLinkMod
deriving DecidableEq, Repr

/-- `getModDownloadLink(modID, version)`. Returns what the source returns
(`getCache(requestID)`, possibly absent) or the thrown failure, paired with
the post-call state. A null response `data` value makes the source throw a
TypeError at the `res.errors` read, before the overlay membership check;
that region is the `typeError` outcome, never the not-found
classification. -/
def getModDownloadLink (st : AppState) (now : Nat) (modID : String)
    (version : String)
    (transport : Except TransportError (GraphQLResponse DownloadLinkData)) :
    Except FicsitError (Option CacheData) × AppState :=
  let requestID := "getModDownloadLink_" ++ modID ++ "_" ++ version
  if cooldownPassed st now requestID then
    let res := fiscitApiQuery transport
    match res.errors with
    | some e => (Except.error (FicsitError.apiErrors e), st)
    | none =>
      match res.payload with
      | none =>
          (Except.error (FicsitError.typeError "cannot read errors of undefined"), st)
      | some d =>
        match d.getMod.bind DownloadLinkMod.version with
        | some v =>
            let st' := setCache st now requestID (CacheData.link (API_URL ++ v.link))
            (Except.ok (getCache st' requestID), st')
        | none =>
            if st.tempMods.any (fun mod => mod.id == modID) then
              (Except.error (FicsitError.modNotFound
                (modID ++ "@" ++ version ++ " is a temporary mod. No download link available")), st)
            else
              (Except.error (FicsitError.modNotFound
                (modID ++ "@" ++ version ++ " not found")), st)
  else
    (Except.ok (getCache st requestID), st)

/-- Inner list of the `getAvailableMods` response. -/
structure GetModsList where
  mods : List FicsitAppMod
deriving DecidableEq, Repr

/-- Response data of the `getAvailableMods` query. -/
structure GetModsData where
  getMods : GetModsList
deriving DecidableEq, Repr

/-- `getAvailableMods()`: fetch up to the page limit of mods, coerce the
date field, append overlay mods when the debug flag is on, cache, and
return the cached list. -/
def getAvailableMods (st : AppState) (now : Nat)
    (transport : Except TransportError (GraphQLResponse GetModsData)) :
    Except FicsitError (Option CacheData) × AppState :=
  let requestID := "getAvailableMods"
  if cooldownPassed st now requestID then
    let res := fiscitApiQuery transport
    match res.errors with
    | some e => (Except.error (FicsitError.apiErrors e), st)
    | none =>
      match res.payload with
      | none => (Except.error (FicsitError.typeError "cannot read mods of undefined"), st)
      | some d =>
          let resGetMods := d.getMods.mods.map
            (fun m => { m with last_version_date := coerceDate m.last_version_date })
          let withTemp := if st.useTempMods then resGetMods ++ st.tempMods else resGetMods
          let st' := setCache st now requestID (CacheData.mods withTemp)
          (Except.ok (getCache st' requestID), st')
  else
    (Except.ok (getCache st requestID), st)

/-- Response data of the `getMod` query. -/
structure GetModData where
  getMod : Option FicsitAppMod
deriving DecidableEq, Repr

/-- `getMod(modID)`: fetch one mod; on a null remote result fall back to the
overlay (debug flag permitting) before throwing `ModNotFoundError`. -/
def getMod (st : AppState) (now : Nat) (modID : String)
    (transport : Except TransportError (GraphQLResponse GetModData)) :
    Except FicsitError (Option CacheData) × AppState :=
  let requestID := "getMod_" ++ modID
  if cooldownPassed st now requestID then
    let res := fiscitApiQuery transport
    match res.errors with
    | some e => (Except.error (FicsitError.apiErrors e), st)
    | none =>
      match res.payload with
      | none => (Except.error (FicsitError.typeError "cannot destructure undefined"), st)
      | some d =>
        match d.getMod with
        | none =>
            if st.useTempMods then
              match st.tempMods.find? (fun mod => mod.id == modID) with
              | some tempMod => (Except.ok (some (CacheData.mod tempMod)), st)
              | none =>
                  (Except.error (FicsitError.modNotFound ("Mod " ++ modID ++ " not found")), st)
            else
              (Except.error (FicsitError.modNotFound ("Mod " ++ modID ++ " not found")), st)
        | some resGetMod =>
            let m := { resGetMod with
              last_version_date := coerceDate resGetMod.last_version_date }
            let st' := setCache st now requestID (CacheData.mod m)
            (Except.ok (getCache st' requestID), st')
  else
    (Except.ok (getCache st requestID), st)

/-- Inner mod of the `getModVersions` response. -/
structure GetModVersionsMod where
  name : String
  id : String
  versions : List FicsitAppVersion
deriving DecidableEq, Repr

/-- Response data of the `getModVersions` query. -/
structure GetModVersionsData where
  getMod : Option GetModVersionsMod
deriving DecidableEq, Repr

/-- What `getModVersions` hands back: the cache read, or — on the overlay
fallback — the overlay mod's own (aliased) version array, tagged with the
mod id so an in-place sort by the caller lands on the right array. -/
inductive VersionsSource where
  | cached (value : Option CacheData)
  | overlay (modID : String) (vs : List FicsitAppVersion)
deriving DecidableEq, Repr

/-- `getModVersions(modID)`. -/
def getModVersions (st : AppState) (now : Nat) (modID : String)
    (transport : Except TransportError (GraphQLResponse GetModVersionsData)) :
    Except FicsitError VersionsSource × AppState :=
  let requestID := "getModVersions_" ++ modID
  if cooldownPassed st now requestID then
    let res := fiscitApiQuery transport
    match res.errors with
    | some e => (Except.error (FicsitError.apiErrors e), st)
    | none =>
      match res.payload with
      | none => (Except.error (FicsitError.typeError "cannot read getMod of undefined"), st)
      | some d =>
        match d.getMod with
        | some gm =>
            let st' := setCache st now requestID (CacheData.versions gm.versions)
            (Except.ok (VersionsSource.cached (getCache st' requestID)), st')
        | none =>
            if st.useTempMods then
              match st.tempMods.find? (fun mod => mod.id == modID) with
              | some tempMod => (Except.ok (VersionsSource.overlay modID tempMod.versions), st)
              | none =>
                  (Except.error (FicsitError.modNotFound ("Mod " ++ modID ++ " not found")), st)
            else
              (Except.error (FicsitError.modNotFound ("Mod " ++ modID ++ " not found")), st)
  else
    (Except.ok (VersionsSource.cached (getCache st requestID)), st)

/-- Ordering induced by the comparator `(a, b) => -compare(a.version, b.version)`
passed to the sort in `getModLatestVersion`: `a` may precede `b` iff the
comparator value is ≤ 0, i.e. descending by precedence. -/
def versionDescLe (a b : FicsitAppVersion) : Bool :=
  decide (-(SemVer.compare a.version b.version) ≤ 0)

/-- Update of the first overlay mod with the given id to carry the given
version list (the in-place sort of an aliased overlay `versions` array). -/
def setVersionsOfFirst (modID : String) (vs : List FicsitAppVersion) :
    List FicsitAppMod → List FicsitAppMod
  | [] => []
  | m :: rest =>
      if m.id == modID then { m with versions := vs } :: rest
      else m :: setVersionsOfFirst modID vs rest

/-- `getModLatestVersion(modID)`: fetch the version list, sort it in place
descending by precedence (the mutation lands on the cached array, or on the
overlay mod's array when the overlay served the list), return element 0
(absent for an empty list). -/
def getModLatestVersion (st : AppState) (now : Nat) (modID : String)
    (transport : Except TransportError (GraphQLResponse GetModVersionsData)) :
    Except FicsitError (Option FicsitAppVersion) × AppState :=
  match getModVersions st now modID transport with
  | (Except.error e, st') => (Except.error e, st')
  | (Except.ok src, st') =>
    match src with
    | VersionsSource.cached (some (CacheData.versions vs)) =>
        let sorted := jsSort versionDescLe vs
        let requestID := "getModVersions_" ++ modID
        let st'' := { st' with cachedFetch := fun k =>
            if k = requestID then
              (st'.cachedFetch k).map (fun f => { f with data := CacheData.versions sorted })
            else st'.cachedFetch k }
        (Except.ok sorted.head?, st'')
    | VersionsSource.cached _ =>
        (Except.error (FicsitError.typeError "sort is not a function"), st')
    | VersionsSource.overlay mid vs =>
        let sorted := jsSort versionDescLe vs
        let st'' := { st' with tempMods := setVersionsOfFirst mid sorted st'.tempMods }
        (Except.ok sorted.head?, st'')

/-- Model of the loop bookkeeping in `findVersionMatchingAll`: a `found`
flag and the `finalVersion` accumulator over a `forEach`; the initial
accumulator mirrors the empty-string initializer and is returned only
behind a false flag. -/
def matchAllLoop (versions : List FicsitAppVersion)
    (versionConstraints : List Constraint) : Bool × SemVer :=
  versions.foldl
    (fun acc modVersion =>
      if !acc.1 && versionSatisfiesAll modVersion.version versionConstraints then
        (true, modVersion.version)
      else acc)
    (false, { major := 0, minor := 0, patch := 0 })

/-- `findVersionMatchingAll(modID, versionConstraints)`: the first version
of the mod (in list order) satisfying every constraint, else `undefined`. -/
def findVersionMatchingAll (st : AppState) (now : Nat) (modID : String)
    (versionConstraints : List Constraint)
    (transport : Except TransportError (GraphQLResponse GetModData)) :
    Except FicsitError (Option SemVer) × AppState :=
  match getMod st now modID transport with
  | (Except.error e, st') => (Except.error e, st')
  | (Except.ok (some (CacheData.mod modInfo)), st') =>
      let r := matchAllLoop modInfo.versions versionConstraints
      (Except.ok (if r.1 then some r.2 else none), st')
  | (Except.ok _, st') =>
      (Except.error (FicsitError.typeError "cannot read versions of undefined"), st')

/-- Inner list of the `getSMLVersions` response. -/
structure SMLVersionsList where
  sml_versions : List FicsitAppSMLVersion
deriving DecidableEq, Repr

/-- Response data of the `getSMLVersions` query. -/
structure GetSMLVersionsData where
  getSMLVersions : SMLVersionsList
deriving DecidableEq, Repr

/-- `getAvailableSMLVersions()`: fetch loader versions, keep only those
satisfying the range `>=2.0.0` (the fetch-time floor), coerce dates, cache
the filtered list, and return the cache read. -/
def getAvailableSMLVersions (st : AppState) (now : Nat)
    (transport : Except TransportError (GraphQLResponse GetSMLVersionsData)) :
    Except FicsitError (Option CacheData) × AppState :=
  let requestID := "getSMLVersions"
  if cooldownPassed st now requestID then
    let res := fiscitApiQuery transport
    match res.errors with
    | some e => (Except.error (FicsitError.apiErrors e), st)
    | none =>
      match res.payload with
      | none => (Except.error (FicsitError.typeError "cannot read sml_versions of undefined"), st)
      | some d =>
          let smlVersionsCompatible := d.getSMLVersions.sml_versions.filter
            (fun version => Constraint.sat version.version (Constraint.ge { major := 2, minor := 0, patch := 0 }))
          let coerced := smlVersionsCompatible.map (fun v => { v with date := coerceDate v.date })
          let st' := setCache st now requestID (CacheData.smlVersions coerced)
          (Except.ok (getCache st' requestID), st')
  else
    (Except.ok (getCache st requestID), st)

/-- Inner list of the `getBootstrapVersions` response. -/
structure BootstrapVersionsList where
  bootstrap_versions : List FicsitAppBootstrapperVersion
deriving DecidableEq, Repr

/-- Response data of the `getBootstrapVersions` query. -/
structure GetBootstrapVersionsData where
  getBootstrapVersions : BootstrapVersionsList
deriving DecidableEq, Repr

/-- `getAvailableBootstrapperVersions()`: as for the loader but with no
version floor. -/
def getAvailableBootstrapperVersions (st : AppState) (now : Nat)
    (transport : Except TransportError (GraphQLResponse GetBootstrapVersionsData)) :
    Except FicsitError (Option CacheData) × AppState :=
  let requestID := "getBootstrapperVersions"
  if cooldownPassed st now requestID then
    let res := fiscitApiQuery transport
    match res.errors with
    | some e => (Except.error (FicsitError.apiErrors e), st)
    | none =>
      match res.payload with
      | none => (Except.error (FicsitError.typeError "cannot read bootstrap_versions of undefined"), st)
      | some d =>
          let coerced := d.getBootstrapVersions.bootstrap_versions.map
            (fun v => { v with date := coerceDate v.date })
          let st' := setCache st now requestID (CacheData.bootstrapperVersions coerced)
          (Except.ok (getCache st' requestID), st')
  else
    (Except.ok (getCache st requestID), st)

/-- `getSMLVersionInfo(version)`: the loader version with exactly the given
version, from the (pre-filtered) available list. -/
def getSMLVersionInfo (st : AppState) (now : Nat) (version : SemVer)
    (transport : Except TransportError (GraphQLResponse GetSMLVersionsData)) :
    Except FicsitError (Option FicsitAppSMLVersion) × AppState :=
  match getAvailableSMLVersions st now transport with
  | (Except.error e, st') => (Except.error e, st')
  | (Except.ok (some (CacheData.smlVersions vs)), st') =>
      (Except.ok (vs.find? (fun smlVersion => smlVersion.version == version)), st')
  | (Except.ok _, st') =>
      (Except.error (FicsitError.typeError "find is not a function"), st')

/-- Ordering induced by the comparator of the sort in
`getLatestSMLVersion`. -/
def smlDescLe (a b : FicsitAppSMLVersion) : Bool :=
  decide (-(SemVer.compare a.version b.version) ≤ 0)

/-- `getLatestSMLVersion()`: sort the available loader versions in place
descending by precedence and return element 0. -/
def getLatestSMLVersion (st : AppState) (now : Nat)
    (transport : Except TransportError (GraphQLResponse GetSMLVersionsData)) :
    Except FicsitError (Option FicsitAppSMLVersion) × AppState :=
  match getAvailableSMLVersions st now transport with
  | (Except.error e, st') => (Except.error e, st')
  | (Except.ok (some (CacheData.smlVersions vs)), st') =>
      let sorted := jsSort smlDescLe vs
      let st'' := { st' with cachedFetch := fun k =>
          if k = "getSMLVersions" then
            (st'.cachedFetch k).map (fun f => { f with data := CacheData.smlVersions sorted })
          else st'.cachedFetch k }
      (Except.ok sorted.head?, st'')
  | (Except.ok _, st') =>
      (Except.error (FicsitError.typeError "sort is not a function"), st')

/-- Ordering induced by the comparator of the sort in
`getLatestBootstrapperVersion`. -/
def bootstrapperDescLe (a b : FicsitAppBootstrapperVersion) : Bool :=
  decide (-(SemVer.compare a.version b.version) ≤ 0)

/-- `getBootstrapperVersionInfo(version)`. -/
def getBootstrapperVersionInfo (st : AppState) (now : Nat) (version : SemVer)
    (transport : Except TransportError (GraphQLResponse GetBootstrapVersionsData)) :
    Except FicsitError (Option FicsitAppBootstrapperVersion) × AppState :=
  match getAvailableBootstrapperVersions st now transport with
  | (Except.error e, st') => (Except.error e, st')
  | (Except.ok (some (CacheData.bootstrapperVersions vs)), st') =>
      (Except.ok (vs.find? (fun bootstrapperVersion => bootstrapperVersion.version == version)), st')
  | (Except.ok _, st') =>
      (Except.error (FicsitError.typeError "find is not a function"), st')

/-- `getLatestBootstrapperVersion()`: sort the available bootstrapper
versions in place descending by precedence and return element 0. -/
def getLatestBootstrapperVersion (st : AppState) (now : Nat)
    (transport : Except TransportError (GraphQLResponse GetBootstrapVersionsData)) :
    Except FicsitError (Option FicsitAppBootstrapperVersion) × AppState :=
  match getAvailableBootstrapperVersions st now transport with
  | (Except.error e, st') => (Except.error e, st')
  | (Except.ok (some (CacheData.bootstrapperVersions vs)), st') =>
      let sorted := jsSort bootstrapperDescLe vs
      let st'' := { st' with cachedFetch := fun k =>
          if k = "getBootstrapperVersions" then
            (st'.cachedFetch k).map (fun f => { f with data := CacheData.bootstrapperVersions sorted })
          else st'.cachedFetch k }
      (Except.ok sorted.head?, st'')
  | (Except.ok _, st') =>
      (Except.error (FicsitError.typeError "sort is not a function"), st')

/-- `findAllVersionsMatchingAll(modID, versionConstraints)`: the loader id
takes the loader branch (with the `>= minSMLVersion` floor re-applied), the
bootstrapper id its branch (no floor), any other id filters the mod's own
version list. Each branch consults only its own remote query, so the
transports for the three possible queries are passed separately. -/
def findAllVersionsMatchingAll (st : AppState) (now : Nat) (modID : String)
    (versionConstraints : List Constraint)
    (tSML : Except TransportError (GraphQLResponse GetSMLVersionsData))
    (tBoot : Except TransportError (GraphQLResponse GetBootstrapVersionsData))
    (tMod : Except TransportError (GraphQLResponse GetModData)) :
    Except FicsitError (List SemVer) × AppState :=
  if modID = SMLModID then
    match getAvailableSMLVersions st now tSML with
    | (Except.error e, st') => (Except.error e, st')
    | (Except.ok (some (CacheData.smlVersions smlVersions)), st') =>
        (Except.ok (((smlVersions.filter
            (fun smlVersion => Constraint.sat smlVersion.version (Constraint.ge minSMLVersion))).filter
            (fun smlVersion => versionSatisfiesAll smlVersion.version versionConstraints)).map
            (fun smlVersion => smlVersion.version)), st')
    | (Except.ok _, st') =>
        (Except.error (FicsitError.typeError "filter is not a function"), st')
  else if modID = BootstrapperModID then
    match getAvailableBootstrapperVersions st now tBoot with
    | (Except.error e, st') => (Except.error e, st')
    | (Except.ok (some (CacheData.bootstrapperVersions bootstrapperVersions)), st') =>
        (Except.ok ((bootstrapperVersions.filter
            (fun bootstrapperVersion => versionSatisfiesAll bootstrapperVersion.version versionConstraints)).map
            (fun bootstrapperVersion => bootstrapperVersion.version)), st')
    | (Except.ok _, st') =>
        (Except.error (FicsitError.typeError "filter is not a function"), st')
  else
    match getMod st now modID tMod with
    | (Except.error e, st') => (Except.error e, st')
    | (Except.ok (some (CacheData.mod modInfo)), st') =>
        (Except.ok ((modInfo.versions.filter
            (fun modVersion => versionSatisfiesAll modVersion.version versionConstraints)).map
            (fun modVersion => modVersion.version)), st')
    | (Except.ok _, st') =>
        (Except.error (FicsitError.typeError "cannot read versions of undefined"), st')

/-! ## Concrete fixtures for witnesses and counterexamples -/

instance {ε α : Type} [DecidableEq ε] [DecidableEq α] : DecidableEq (Except ε α) := fun a b =>
  match a, b with
  | Except.ok x, Except.ok y =>
      if h : x = y then isTrue (by rw [h])
      else isFalse (by intro he; cases he; exact h rfl)
  | Except.ok _, Except.error _ => isFalse (by intro he; cases he)
  | Except.error _, Except.ok _ => isFalse (by intro he; cases he)
  | Except.error x, Except.error y =>
      if h : x = y then isTrue (by rw [h])
      else isFalse (by intro he; cases he; exact h rfl)

/-- The empty cache. -/
def emptyCache : String → Option FicsitAppFetch := fun _ => none

/-- A minimal mod record fixture. -/
def mkMod (id : String) (versions : List FicsitAppVersion) : FicsitAppMod :=
  { id := id, name := "", short_description := "", full_description := ""
    logo := "", source_url := "", views := 0, downloads := 0, hotness := 0
    popularity := 0, last_version_date := none, authors := [], versions := versions }

/-- A minimal mod-version record fixture. -/
def mkVersion (mod_id : String) (v : SemVer) : FicsitAppVersion :=
  { mod_id := mod_id, version := v
    sml_version := { major := 2, minor := 0, patch := 0 }
    changelog := "", downloads := "", stability := Stability.release, link := "" }

/-! ## Claims -/

/-- C9: `fiscitApiQuery` never raises on transport failure — for both
failure kinds (network error and malformed response body) it evaluates to
the uniform value whose `errors` field holds the NetworkError and that is
independent of which transport failure occurred; on a successful round
trip it returns the parsed `data` member. -/
theorem C9_fiscitApiQuery_uniform_errors {α : Type} (e e' : TransportError) :
    (fiscitApiQuery (α := α) (Except.error e)).errors =
      some (ApiError.networkError "Network error. Please try again later.") ∧
    (fiscitApiQuery (α := α) (Except.error e)).payload = none ∧
    fiscitApiQuery (α := α) (Except.error e) = fiscitApiQuery (α := α) (Except.error e') ∧
    ∀ resp : GraphQLResponse α, fiscitApiQuery (Except.ok resp) = resp.data := by
  refine ⟨rfl, rfl, rfl, fun resp => rfl⟩

/-- Cache state fixture for the C2 boundary counterexample: one entry under
the `getAvailableMods` key written at time 0. -/
def c2State : AppState :=
  { useTempMods := false, tempMods := []
    cachedFetch := fun k =>
      if k = "getAvailableMods" then
        some { time := 0, data := CacheData.mods [] }
      else none }

/-- C2 counterexample: a cache entry written at `t = 0` is still served at
`t' = t + fetchCooldown` exactly (age `>= 5` minutes): `cooldownPassed` is
false there (the age test is strict `>`), and `getAvailableMods` serves the
cached payload without any refetch — the transport is a hard network
failure, so a refetch would have thrown. The claim demands a refetch for
every read with `t' - t >= 5` minutes. -/
theorem C2_counterexample :
    cooldownPassed c2State fetchCooldown "getAvailableMods" = false ∧
    (getAvailableMods c2State fetchCooldown
        (Except.error (TransportError.networkFailure "offline"))).1 =
      Except.ok (some (CacheData.mods [])) := by
  constructor
  · decide
  · decide

/-- C2 (amended): a cache entry written at time `t` is returned unchanged
(no refetch) by any read at `t'` with `t' - t <= 5` minutes, and is treated
as absent (forcing a refetch) exactly when `t' - t > 5` minutes; a freshly
written entry carries the write time. The original claim's `>= 5 min` stale
bound fails at the boundary `t' - t = 5` minutes. -/
theorem C2_cache_freshness (st : AppState) (t now : Nat) (k : String)
    (d : CacheData)
    (hentry : st.cachedFetch k = some { time := t, data := d }) :
    (now - t ≤ fetchCooldown →
      cooldownPassed st now k = false ∧ getCache st k = some d) ∧
    (fetchCooldown < now - t → cooldownPassed st now k = true) ∧
    ((setCache st t k d).cachedFetch k = some { time := t, data := d }) ∧
    (∀ (ms : List FicsitAppMod)
        (transport : Except TransportError (GraphQLResponse GetModsData)),
      st.cachedFetch "getAvailableMods" = some { time := t, data := CacheData.mods ms } →
      now - t ≤ fetchCooldown →
      getAvailableMods st now transport = (Except.ok (some (CacheData.mods ms)), st)) := by
  refine ⟨?_, ?_, ?_, ?_⟩
  · intro hfresh
    constructor
    · unfold cooldownPassed
      rw [hentry]
      simp only [decide_eq_false_iff_not]
      omega
    · unfold getCache
      rw [hentry]
      rfl
  · intro hstale
    unfold cooldownPassed
    rw [hentry]
    simp only [decide_eq_true_eq]
    omega
  · unfold setCache
    simp
  · intro ms transport hms hfresh
    have hcp : cooldownPassed st now "getAvailableMods" = false := by
      unfold cooldownPassed
      rw [hms]
      simp only [decide_eq_false_iff_not]
      omega
    simp [getAvailableMods, hcp, getCache, hms]

/-- Cache state fixture for the C2 witness: one entry under key `k` written
at time 0. -/
def c2wState : AppState :=
  { useTempMods := false, tempMods := []
    cachedFetch := fun k =>
      if k = "k" then some { time := 0, data := CacheData.link "u" } else none }

/-- C2 witness: the freshness theorem applied at a concrete state — a read
100 ms after the write is a cache hit, and a read 300001 ms after the write
forces a refetch. -/
theorem C2_cache_freshness_witness :
    (cooldownPassed c2wState 100 "k" = false ∧
      getCache c2wState "k" = some (CacheData.link "u")) ∧
    cooldownPassed c2wState 300001 "k" = true := by
  refine ⟨(C2_cache_freshness c2wState 0 100 "k" (CacheData.link "u") rfl).1 (by decide),
    (C2_cache_freshness c2wState 0 300001 "k" (CacheData.link "u") rfl).2.1 (by decide)⟩

/-- The overlay uniqueness invariant of the spec: mod ids unique within the
overlay, version ids unique within each overlay mod. -/
def overlayUnique (st : AppState) : Prop :=
  (st.tempMods.map FicsitAppMod.id).Nodup ∧
  ∀ m ∈ st.tempMods, (m.versions.map FicsitAppVersion.version).Nodup

instance (st : AppState) : Decidable (overlayUnique st) := by
  unfold overlayUnique
  infer_instance

/-- Overlay state fixture for the C5 counterexample: overlay enabled,
initially empty. -/
def c5State : AppState :=
  { useTempMods := true, tempMods := [], cachedFetch := emptyCache }

/-- C5 counterexample: starting from a (trivially unique) overlay, two
`addTempMod` calls with the same mod id leave the overlay with duplicate
mod identifiers — `addTempMod` performs no duplicate check. -/
theorem C5_counterexample :
    overlayUnique c5State ∧
    ¬ ((addTempMod (addTempMod c5State (mkMod "modA" [])) (mkMod "modA" [])).tempMods.map
        FicsitAppMod.id).Nodup := by
  constructor
  · exact ⟨List.nodup_nil, by intro m hm; cases hm⟩
  · decide

theorem pushVersionToFirst_map_id (v : FicsitAppVersion) (l : List FicsitAppMod) :
    (pushVersionToFirst v l).map FicsitAppMod.id = l.map FicsitAppMod.id := by
  induction l with
  | nil => rfl
  | cons m rest ih =>
    simp only [pushVersionToFirst]
    split
    · simp
    · simp [ih]

theorem pushVersionToFirst_versions (v : FicsitAppVersion) (l : List FicsitAppMod)
    (h2 : ∀ m ∈ l, (m.versions.map FicsitAppVersion.version).Nodup)
    (hfresh : ∀ m ∈ l, m.id = v.mod_id →
      v.version ∉ m.versions.map FicsitAppVersion.version) :
    ∀ m ∈ pushVersionToFirst v l, (m.versions.map FicsitAppVersion.version).Nodup := by
  induction l with
  | nil => intro m hm; cases hm
  | cons m rest ih =>
    simp only [pushVersionToFirst]
    split <;> rename_i hid
    · intro m' hm'
      rcases List.mem_cons.mp hm' with hm' | hm'
      · subst hm'
        simp only [List.map_append, List.map_cons, List.map_nil]
        rw [List.nodup_append]
        refine ⟨h2 m (List.mem_cons_self m rest), List.nodup_singleton _, ?_⟩
        intro a ha hb
        rcases List.mem_singleton.mp hb with rfl
        exact hfresh m (List.mem_cons_self m rest) (by simpa using hid) ha
      · exact h2 m' (List.mem_cons_of_mem m hm')
    · intro m' hm'
      rcases List.mem_cons.mp hm' with hm' | hm'
      · exact hm' ▸ h2 m (List.mem_cons_self m rest)
      · exact ih (fun x hx => h2 x (List.mem_cons_of_mem m hx))
          (fun x hx => hfresh x (List.mem_cons_of_mem m hx)) m' hm'

theorem removeVersionFromFirst_map_id (modID : String) (ver : SemVer)
    (l : List FicsitAppMod) :
    (removeVersionFromFirst modID ver l).map FicsitAppMod.id = l.map FicsitAppMod.id := by
  induction l with
  | nil => rfl
  | cons m rest ih =>
    simp only [removeVersionFromFirst]
    split
    · simp
    · simp [ih]

theorem removeVersionFromFirst_versions (modID : String) (ver : SemVer)
    (l : List FicsitAppMod)
    (h2 : ∀ m ∈ l, (m.versions.map FicsitAppVersion.version).Nodup) :
    ∀ m ∈ removeVersionFromFirst modID ver l,
      (m.versions.map FicsitAppVersion.version).Nodup := by
  induction l with
  | nil => intro m hm; cases hm
  | cons m rest ih =>
    simp only [removeVersionFromFirst]
    split <;> rename_i hid
    · intro m' hm'
      rcases List.mem_cons.mp hm' with hm' | hm'
      · subst hm'
        simp only [removeArrayElementWhere]
        exact ((List.filter_sublist _).map FicsitAppVersion.version).nodup
          (h2 m (List.mem_cons_self m rest))
      · exact h2 m' (List.mem_cons_of_mem m hm')
    · intro m' hm'
      rcases List.mem_cons.mp hm' with hm' | hm'
      · exact hm' ▸ h2 m (List.mem_cons_self m rest)
      · exact ih (fun x hx => h2 x (List.mem_cons_of_mem m hx)) m' hm'

/-- C5 (amended): the overlay uniqueness invariant is preserved by
`removeTempMod` and `removeTempModVersion` unconditionally, and by
`addTempMod` / `addTempModVersion` only under a caller-side freshness
condition: the added mod's id is not already in the overlay (and its own
version list is duplicate-free), respectively the added version's id is not
already in the target overlay mod's list. The adders themselves perform no
duplicate check, so the unconditional claim fails. -/
theorem C5_overlay_uniqueness (st : AppState) (mod : FicsitAppMod)
    (v : FicsitAppVersion) (modID : String) (ver : SemVer)
    (hu : overlayUnique st) :
    (mod.id ∉ st.tempMods.map FicsitAppMod.id →
      (mod.versions.map FicsitAppVersion.version).Nodup →
      overlayUnique (addTempMod st mod)) ∧
    ((∀ m ∈ st.tempMods, m.id = v.mod_id →
        v.version ∉ m.versions.map FicsitAppVersion.version) →
      overlayUnique (addTempModVersion st v)) ∧
    overlayUnique (removeTempMod st modID) ∧
    overlayUnique (removeTempModVersion st modID ver) := by
  refine ⟨?_, ?_, ?_, ?_⟩
  · intro hid hvn
    unfold addTempMod
    split
    · refine ⟨?_, ?_⟩
      · simp only [List.map_append, List.map_cons, List.map_nil]
        rw [List.nodup_append]
        refine ⟨hu.1, List.nodup_singleton _, ?_⟩
        intro a ha hb
        rcases List.mem_singleton.mp hb with rfl
        exact hid ha
      · intro m hm
        rcases List.mem_append.mp hm with hm | hm
        · exact hu.2 m hm
        · rcases List.mem_singleton.mp hm with rfl
          exact hvn
    · exact hu
  · intro hfresh
    unfold addTempModVersion
    split
    · refine ⟨?_, ?_⟩
      · rw [pushVersionToFirst_map_id]
        exact hu.1
      · exact pushVersionToFirst_versions v st.tempMods hu.2 hfresh
    · exact hu
  · unfold removeTempMod
    split
    · refine ⟨?_, ?_⟩
      · simp only [removeArrayElementWhere]
        exact ((List.filter_sublist _).map FicsitAppMod.id).nodup hu.1
      · intro m hm
        simp only [removeArrayElementWhere] at hm
        exact hu.2 m (List.mem_of_mem_filter hm)
    · exact hu
  · unfold removeTempModVersion
    split
    · refine ⟨?_, ?_⟩
      · rw [removeVersionFromFirst_map_id]
        exact hu.1
      · exact removeVersionFromFirst_versions modID ver st.tempMods hu.2
    · exact hu

/-- Overlay state fixture for the C5 witness: overlay enabled, one mod with
one version. -/
def c5wState : AppState :=
  { useTempMods := true
    tempMods := [mkMod "a" [mkVersion "a" { major := 1, minor := 0, patch := 0 }]]
    cachedFetch := emptyCache }

/-- C5 witness: the amended uniqueness theorem applied at a concrete
overlay. -/
theorem C5_overlay_uniqueness_witness :
    overlayUnique (addTempMod c5wState (mkMod "b" [])) ∧
    overlayUnique (addTempModVersion c5wState
      (mkVersion "a" { major := 2, minor := 0, patch := 0 })) ∧
    overlayUnique (removeTempMod c5wState "a") ∧
    overlayUnique (removeTempModVersion c5wState "a"
      { major := 1, minor := 0, patch := 0 }) := by
  have h := C5_overlay_uniqueness c5wState (mkMod "b" [])
    (mkVersion "a" { major := 2, minor := 0, patch := 0 }) "a"
    { major := 1, minor := 0, patch := 0 } (by decide)
  exact ⟨h.1 (by decide) (by decide), h.2.1 (by decide), h.2.2.1, h.2.2.2⟩

theorem getCache_setCache (st : AppState) (now : Nat) (k : String) (d : CacheData) :
    getCache (setCache st now k d) k = some d := by
  simp [getCache, setCache]

/-- State fixture for the C4 counterexample: overlay disabled and empty. -/
def c4StA : AppState :=
  { useTempMods := false, tempMods := [], cachedFetch := emptyCache }

/-- State fixture for the C4 counterexample: overlay disabled but holding a
leftover mod (reachable by enabling, adding, then disabling). -/
def c4StB : AppState :=
  { useTempMods := false, tempMods := [mkMod "modA" []], cachedFetch := emptyCache }

/-- Transport fixture for C4: the remote reports no match for the
requested mod+version pair. -/
def c4T : Except TransportError (GraphQLResponse DownloadLinkData) :=
  Except.ok { data := { errors := none, payload := some { getMod := none } } }

/-- C4 counterexample: with the debug flag disabled in both states, two
states differing only in overlay content give different
`getModDownloadLink` outcomes — the not-found classification reads
`tempMods` without checking the flag, so overlay content is consulted
while disabled, contradicting the claim. -/
theorem C4_counterexample :
    c4StA.useTempMods = false ∧ c4StB.useTempMods = false ∧
    (getModDownloadLink c4StA 0 "modA" "1.0.0" c4T).1 =
      Except.error (FicsitError.modNotFound "modA@1.0.0 not found") ∧
    (getModDownloadLink c4StB 0 "modA" "1.0.0" c4T).1 =
      Except.error (FicsitError.modNotFound
        "modA@1.0.0 is a temporary mod. No download link available") ∧
    (getModDownloadLink c4StA 0 "modA" "1.0.0" c4T).1 ≠
      (getModDownloadLink c4StB 0 "modA" "1.0.0" c4T).1 := by
  refine ⟨rfl, rfl, by decide, by decide, by decide⟩

/-- C4 (amended): with the debug flag disabled, each of the four overlay
mutators leaves the whole state unchanged, and `getAvailableMods`,
`getMod`, and `getModVersions` produce results determined by the cache and
the remote response alone (the not-found outcomes in particular never fall
back to the overlay); `getModDownloadLink`, however, consults overlay
membership for its not-found classification even while the flag is
disabled, which is where the original claim fails. -/
theorem C4_overlay_disabled (st : AppState) (now : Nat) (mod : FicsitAppMod)
    (v : FicsitAppVersion) (modID : String) (ver : SemVer) (mid : String)
    (hflag : st.useTempMods = false) :
    (addTempMod st mod = st) ∧
    (addTempModVersion st v = st) ∧
    (removeTempMod st modID = st) ∧
    (removeTempModVersion st modID ver = st) ∧
    (∀ (d : GetModsData) (resp : GraphQLResponse GetModsData),
      cooldownPassed st now "getAvailableMods" = true →
      resp.data.errors = none → resp.data.payload = some d →
      (getAvailableMods st now (Except.ok resp)).1 =
        Except.ok (some (CacheData.mods (d.getMods.mods.map
          (fun m => { m with last_version_date := coerceDate m.last_version_date }))))) ∧
    (∀ (d : GetModData) (resp : GraphQLResponse GetModData),
      cooldownPassed st now ("getMod_" ++ mid) = true →
      resp.data.errors = none → resp.data.payload = some d → d.getMod = none →
      (getMod st now mid (Except.ok resp)).1 =
        Except.error (FicsitError.modNotFound ("Mod " ++ mid ++ " not found"))) ∧
    (∀ (d : GetModVersionsData) (resp : GraphQLResponse GetModVersionsData),
      cooldownPassed st now ("getModVersions_" ++ mid) = true →
      resp.data.errors = none → resp.data.payload = some d → d.getMod = none →
      (getModVersions st now mid (Except.ok resp)).1 =
        Except.error (FicsitError.modNotFound ("Mod " ++ mid ++ " not found"))) := by
  refine ⟨?_, ?_, ?_, ?_, ?_, ?_, ?_⟩
  · simp [addTempMod, hflag]
  · simp [addTempModVersion, hflag]
  · simp [removeTempMod, hflag]
  · simp [removeTempModVersion, hflag]
  · intro d resp hcp herr hpay
    simp [getAvailableMods, hcp, fiscitApiQuery, herr, hpay, hflag, getCache_setCache]
  · intro d resp hcp herr hpay hnone
    simp [getMod, hcp, fiscitApiQuery, herr, hpay, hnone, hflag]
  · intro d resp hcp herr hpay hnone
    simp [getModVersions, hcp, fiscitApiQuery, herr, hpay, hnone, hflag]

/-- Transport fixtures for the C4 witness. -/
def c4wRespMods : GraphQLResponse GetModsData :=
  { data := { errors := none, payload := some { getMods := { mods := [] } } } }

/-- Transport fixture for the C4 witness `getMod` conjunct. -/
def c4wRespMod : GraphQLResponse GetModData :=
  { data := { errors := none, payload := some { getMod := none } } }

/-- Transport fixture for the C4 witness `getModVersions` conjunct. -/
def c4wRespVersions : GraphQLResponse GetModVersionsData :=
  { data := { errors := none, payload := some { getMod := none } } }

/-- C4 witness: the disabled-overlay theorem applied at a concrete disabled
state with a leftover overlay mod. -/
theorem C4_overlay_disabled_witness :
    (addTempMod c4StB (mkMod "x" []) = c4StB) ∧
    (removeTempMod c4StB "modA" = c4StB) ∧
    (getAvailableMods c4StB 0 (Except.ok c4wRespMods)).1 =
      Except.ok (some (CacheData.mods [])) ∧
    (getMod c4StB 0 "modA" (Except.ok c4wRespMod)).1 =
      Except.error (FicsitError.modNotFound "Mod modA not found") ∧
    (getModVersions c4StB 0 "modA" (Except.ok c4wRespVersions)).1 =
      Except.error (FicsitError.modNotFound "Mod modA not found") := by
  have h := C4_overlay_disabled c4StB 0 (mkMod "x" []) (mkVersion "x" { major := 1, minor := 0, patch := 0 })
    "modA" { major := 1, minor := 0, patch := 0 } "modA" rfl
  refine ⟨h.1, h.2.2.1, ?_, ?_, ?_⟩
  · have := h.2.2.2.2.1 { getMods := { mods := [] } } c4wRespMods (by decide) rfl rfl
    simpa using this
  · have := h.2.2.2.2.2.1 { getMod := none } c4wRespMod (by decide) rfl rfl rfl
    simpa using this
  · have := h.2.2.2.2.2.2 { getMod := none } c4wRespVersions (by decide) rfl rfl rfl
    simpa using this

/-- C7: when the remote (per a non-error response) reports no mod for the
requested id, `getMod` returns the overlay mod with that id if the overlay
is enabled and contains one, and otherwise throws `ModNotFoundError`; on a
non-error response containing the mod, it returns that mod (with its date
field normalized) and caches it. -/
theorem C7_getMod_overlay_fallback (st : AppState) (now : Nat) (modID : String)
    (resp : GraphQLResponse GetModData) (d : GetModData)
    (hcp : cooldownPassed st now ("getMod_" ++ modID) = true)
    (herr : resp.data.errors = none) (hpay : resp.data.payload = some d) :
    (d.getMod = none → st.useTempMods = true →
      ∀ tm, st.tempMods.find? (fun mod => mod.id == modID) = some tm →
        getMod st now modID (Except.ok resp) = (Except.ok (some (CacheData.mod tm)), st)) ∧
    (d.getMod = none → st.useTempMods = false →
      getMod st now modID (Except.ok resp) =
        (Except.error (FicsitError.modNotFound ("Mod " ++ modID ++ " not found")), st)) ∧
    (d.getMod = none → st.useTempMods = true →
      st.tempMods.find? (fun mod => mod.id == modID) = none →
      getMod st now modID (Except.ok resp) =
        (Except.error (FicsitError.modNotFound ("Mod " ++ modID ++ " not found")), st)) ∧
    (∀ m, d.getMod = some m →
      getMod st now modID (Except.ok resp) =
        (Except.ok (some (CacheData.mod
            { m with last_version_date := coerceDate m.last_version_date })),
         setCache st now ("getMod_" ++ modID)
           (CacheData.mod { m with last_version_date := coerceDate m.last_version_date }))) := by
  refine ⟨?_, ?_, ?_, ?_⟩
  · intro hnone hflag tm hfind
    simp [getMod, hcp, fiscitApiQuery, herr, hpay, hnone, hflag, hfind]
  · intro hnone hflag
    simp [getMod, hcp, fiscitApiQuery, herr, hpay, hnone, hflag]
  · intro hnone hflag hfind
    simp [getMod, hcp, fiscitApiQuery, herr, hpay, hnone, hflag, hfind]
  · intro m hsome
    simp [getMod, hcp, fiscitApiQuery, herr, hpay, hsome, getCache_setCache]

/-- State fixture for the C7 witness: overlay enabled holding `modA`. -/
def c7State : AppState :=
  { useTempMods := true, tempMods := [mkMod "modA" []], cachedFetch := emptyCache }

/-- Response fixture for the C7 witness: remote reports no such mod. -/
def c7Resp : GraphQLResponse GetModData :=
  { data := { errors := none, payload := some { getMod := none } } }

/-- Response fixture for the C7 witness: remote returns the mod. -/
def c7RespFound : GraphQLResponse GetModData :=
  { data := { errors := none, payload := some { getMod := some (mkMod "modB" []) } } }

/-- C7 witness: at a concrete enabled state, the null remote answer falls
back to the overlay mod, and a found remote answer returns the remote
mod. -/
theorem C7_getMod_overlay_fallback_witness :
    getMod c7State 0 "modA" (Except.ok c7Resp) =
      (Except.ok (some (CacheData.mod (mkMod "modA" []))), c7State) ∧
    (getMod c7State 0 "modB" (Except.ok c7RespFound)).1 =
      Except.ok (some (CacheData.mod (mkMod "modB" []))) := by
  constructor
  · exact (C7_getMod_overlay_fallback c7State 0 "modA" c7Resp { getMod := none }
      (by decide) rfl rfl).1 rfl rfl (mkMod "modA" []) (by decide)
  · have := (C7_getMod_overlay_fallback c7State 0 "modB" c7RespFound
      { getMod := some (mkMod "modB" []) } (by decide) rfl rfl).2.2.2
      (mkMod "modB" []) rfl
    rw [this]
    decide

/-- C8: when `getModDownloadLink` finds no live match for the exact
mod+version pair (non-error response whose data object carries no
`getMod.version` — the null-data crash path is excluded, as the source
throws a TypeError there before classifying), the thrown
`ModNotFoundError` carries the temporary-mod message exactly when the
overlay holds a mod with that id, and the generic not-found message
otherwise; the two messages are distinct for every id and version. -/
theorem C8_download_not_found_kinds (st : AppState) (now : Nat)
    (modID version : String) (resp : GraphQLResponse DownloadLinkData)
    (d : DownloadLinkData)
    (hcp : cooldownPassed st now
      ("getModDownloadLink_" ++ modID ++ "_" ++ version) = true)
    (herr : resp.data.errors = none)
    (hpay : resp.data.payload = some d)
    (hnolive : d.getMod.bind DownloadLinkMod.version = none) :
    (st.tempMods.any (fun mod => mod.id == modID) = true →
      (getModDownloadLink st now modID version (Except.ok resp)).1 =
        Except.error (FicsitError.modNotFound
          (modID ++ "@" ++ version ++ " is a temporary mod. No download link available"))) ∧
    (st.tempMods.any (fun mod => mod.id == modID) = false →
      (getModDownloadLink st now modID version (Except.ok resp)).1 =
        Except.error (FicsitError.modNotFound
          (modID ++ "@" ++ version ++ " not found"))) ∧
    (modID ++ "@" ++ version ++ " is a temporary mod. No download link available") ≠
      (modID ++ "@" ++ version ++ " not found") := by
  refine ⟨?_, ?_, ?_⟩
  · intro htemp
    simp [getModDownloadLink, hcp, fiscitApiQuery, herr, hpay, hnolive, htemp]
  · intro htemp
    simp [getModDownloadLink, hcp, fiscitApiQuery, herr, hpay, hnolive, htemp]
  · intro h
    have hl := congrArg String.length h
    simp only [String.length_append] at hl
    have hx : (" is a temporary mod. No download link available").length ≠
        (" not found").length := by decide
    omega

/-- Transport fixture for the C8 witness: no live match. -/
def c8Resp : GraphQLResponse DownloadLinkData :=
  { data := { errors := none, payload := some { getMod := none } } }

/-- C8 witness: the classification theorem at a concrete state holding an
overlay mod `modA` and at one not holding it. -/
theorem C8_download_not_found_kinds_witness :
    (getModDownloadLink c7State 0 "modA" "1.0.0" (Except.ok c8Resp)).1 =
      Except.error (FicsitError.modNotFound
        "modA@1.0.0 is a temporary mod. No download link available") ∧
    (getModDownloadLink c7State 0 "other" "1.0.0" (Except.ok c8Resp)).1 =
      Except.error (FicsitError.modNotFound "other@1.0.0 not found") := by
  constructor
  · have := (C8_download_not_found_kinds c7State 0 "modA" "1.0.0" c8Resp
      { getMod := none } (by decide) rfl rfl rfl).1 (by decide)
    simpa using this
  · have := (C8_download_not_found_kinds c7State 0 "other" "1.0.0" c8Resp
      { getMod := none } (by decide) rfl rfl rfl).2.1 (by decide)
    simpa using this

theorem matchFold_done (cs : List Constraint) (l : List FicsitAppVersion) (v : SemVer) :
    l.foldl (fun acc modVersion =>
      if !acc.1 && versionSatisfiesAll modVersion.version cs then
        (true, modVersion.version) else acc) (true, v) = (true, v) := by
  induction l with
  | nil => rfl
  | cons x xs ih =>
    simp only [List.foldl_cons, Bool.not_true, Bool.false_and, if_false]
    exact ih

theorem matchFold_eq_find (cs : List Constraint) (l : List FicsitAppVersion) (v : SemVer) :
    (if (l.foldl (fun acc modVersion =>
        if !acc.1 && versionSatisfiesAll modVersion.version cs then
          (true, modVersion.version) else acc) (false, v)).1 then
      some (l.foldl (fun acc modVersion =>
        if !acc.1 && versionSatisfiesAll modVersion.version cs then
          (true, modVersion.version) else acc) (false, v)).2
    else none) =
      (l.find? (fun mv => versionSatisfiesAll mv.version cs)).map
        FicsitAppVersion.version := by
  induction l generalizing v with
  | nil => rfl
  | cons x xs ih =>
    rw [List.foldl_cons]
    by_cases hx : versionSatisfiesAll x.version cs
    · rw [List.find?_cons_of_pos xs hx]
      simp only [Bool.not_false, Bool.true_and, hx, if_true, matchFold_done,
        Option.map_some']
    · rw [List.find?_cons_of_neg xs (by simp [hx])]
      have hxf : versionSatisfiesAll x.version cs = false := by
        simpa using hx
      simp only [Bool.not_false, Bool.true_and, hxf, Bool.false_eq_true, if_false]
      exact ih v

theorem find?_eq_head_filter (p : α → Bool) (l : List α) :
    l.find? p = (l.filter p).head? := by
  induction l with
  | nil => rfl
  | cons x xs ih =>
    by_cases hx : p x
    · rw [List.find?_cons_of_pos xs hx]
      simp [List.filter_cons, hx]
    · rw [List.find?_cons_of_neg xs (by simp [hx])]
      have hxf : p x = false := by simpa using hx
      simp only [List.filter_cons, hxf, Bool.false_eq_true, if_false]
      exact ih

/-- Mod fixture for the C1 counterexample: a mod record whose id collides
with the loader component id. -/
def c1Mod : FicsitAppMod :=
  mkMod "SML" [mkVersion "SML" { major := 1, minor := 0, patch := 0 }]

/-- State fixture for the C1 counterexample. -/
def c1State : AppState :=
  { useTempMods := true, tempMods := [c1Mod], cachedFetch := emptyCache }

/-- Transport fixture for the C1 counterexample `getMod` query: the remote
has no such mod (so the overlay record is the mod's record). -/
def c1TMod : Except TransportError (GraphQLResponse GetModData) :=
  Except.ok { data := { errors := none, payload := some { getMod := none } } }

/-- Transport fixture for the C1 counterexample loader query: no loader
versions. -/
def c1TSML : Except TransportError (GraphQLResponse GetSMLVersionsData) :=
  Except.ok { data := { errors := none
                        payload := some { getSMLVersions := { sml_versions := [] } } } }

/-- Transport fixture for the C1 counterexample bootstrapper query. -/
def c1TBoot : Except TransportError (GraphQLResponse GetBootstrapVersionsData) :=
  Except.ok { data := { errors := none
                        payload := some { getBootstrapVersions := { bootstrap_versions := [] } } } }

/-- C1 counterexample: for the loader component id the claim fails — the
mod record for id `SML` (served from the overlay) holds the version list
`[1.0.0]`, every version of which satisfies the empty constraint list, yet
`findAllVersionsMatchingAll` returns `[]`: the loader branch ignores the
mod's record entirely. -/
theorem C1_counterexample :
    (getMod c1State 0 "SML" c1TMod).1 = Except.ok (some (CacheData.mod c1Mod)) ∧
    (c1Mod.versions.filter
        (fun mv => versionSatisfiesAll mv.version [])).map FicsitAppVersion.version =
      [{ major := 1, minor := 0, patch := 0 }] ∧
    (findAllVersionsMatchingAll c1State 0 "SML" [] c1TSML c1TBoot c1TMod).1 =
      Except.ok [] ∧
    (Except.ok [] : Except FicsitError (List SemVer)) ≠
      Except.ok [{ major := 1, minor := 0, patch := 0 }] := by
  refine ⟨by decide, by decide, by decide, by decide⟩

/-- C1 (amended): for every mod id other than the two loader component ids
(whose branches read the loader/bootstrapper collections instead of the
mod's record), when `getMod` yields the mod record `m`,
`findAllVersionsMatchingAll` returns exactly the version strings of the
versions of `m` satisfying every constraint, in original order, and
`findVersionMatchingAll` returns the first such version — the head of that
filtered list — and is absent iff that list is empty. -/
theorem C1_find_matching (st : AppState) (now : Nat) (modID : String)
    (cs : List Constraint) (m : FicsitAppMod) (st' : AppState)
    (tSML : Except TransportError (GraphQLResponse GetSMLVersionsData))
    (tBoot : Except TransportError (GraphQLResponse GetBootstrapVersionsData))
    (tMod : Except TransportError (GraphQLResponse GetModData))
    (hsml : modID ≠ SMLModID) (hboot : modID ≠ BootstrapperModID)
    (hmod : getMod st now modID tMod = (Except.ok (some (CacheData.mod m)), st')) :
    findAllVersionsMatchingAll st now modID cs tSML tBoot tMod =
      (Except.ok ((m.versions.filter
          (fun mv => versionSatisfiesAll mv.version cs)).map FicsitAppVersion.version),
       st') ∧
    findVersionMatchingAll st now modID cs tMod =
      (Except.ok (((m.versions.filter
          (fun mv => versionSatisfiesAll mv.version cs)).head?).map FicsitAppVersion.version),
       st') ∧
    ((findVersionMatchingAll st now modID cs tMod).1 = Except.ok none ↔
      m.versions.filter (fun mv => versionSatisfiesAll mv.version cs) = []) := by
  have hall : findAllVersionsMatchingAll st now modID cs tSML tBoot tMod =
      (Except.ok ((m.versions.filter
          (fun mv => versionSatisfiesAll mv.version cs)).map FicsitAppVersion.version),
       st') := by
    unfold findAllVersionsMatchingAll
    rw [if_neg hsml, if_neg hboot, hmod]
  have hfind : findVersionMatchingAll st now modID cs tMod =
      (Except.ok (((m.versions.filter
          (fun mv => versionSatisfiesAll mv.version cs)).head?).map FicsitAppVersion.version),
       st') := by
    unfold findVersionMatchingAll
    rw [hmod]
    have hloop := matchFold_eq_find cs m.versions { major := 0, minor := 0, patch := 0 }
    rw [find?_eq_head_filter] at hloop
    simp only [matchAllLoop]
    rw [hloop]
  refine ⟨hall, hfind, ?_⟩
  rw [hfind]
  simp only [Except.ok.injEq, Option.map_eq_none', List.head?_eq_none_iff]

/-- Mod fixture for the C1 witness. -/
def c1wMod : FicsitAppMod :=
  mkMod "modA" [mkVersion "modA" { major := 1, minor := 0, patch := 0 },
                mkVersion "modA" { major := 2, minor := 0, patch := 0 }]

/-- State fixture for the C1 witness: the mod is already cached. -/
def c1wState : AppState :=
  { useTempMods := false, tempMods := []
    cachedFetch := fun k =>
      if k = "getMod_modA" then
        some { time := 0, data := CacheData.mod c1wMod }
      else none }

/-- Failing transport fixture: any call that consults the network with this
transport would see a hard failure, so a successful result proves the
network was not consulted. -/
def failT {α : Type} : Except TransportError (GraphQLResponse α) :=
  Except.error (TransportError.networkFailure "offline")

/-- C1 witness: the matching theorem applied at a concrete cached mod with
the constraint `>=2.0.0`. -/
theorem C1_find_matching_witness :
    (findAllVersionsMatchingAll c1wState 0 "modA"
        [Constraint.ge { major := 2, minor := 0, patch := 0 }] failT failT failT).1 =
      Except.ok [{ major := 2, minor := 0, patch := 0 }] ∧
    (findVersionMatchingAll c1wState 0 "modA"
        [Constraint.ge { major := 2, minor := 0, patch := 0 }] failT).1 =
      Except.ok (some { major := 2, minor := 0, patch := 0 }) := by
  have h := C1_find_matching c1wState 0 "modA"
    [Constraint.ge { major := 2, minor := 0, patch := 0 }] c1wMod c1wState
    failT failT failT (by decide) (by decide) rfl
  constructor
  · rw [congrArg Prod.fst h.1]
    decide
  · rw [congrArg Prod.fst h.2.1]
    decide

theorem versionDescLe_iff (a b : FicsitAppVersion) :
    versionDescLe a b = true ↔ SemVer.leb b.version a.version = true := by
  simp only [versionDescLe, decide_eq_true_eq, neg_nonpos]
  exact SemVer.compare_nonneg_iff a.version b.version

theorem versionDescLe_trans : ∀ a b c : FicsitAppVersion,
    versionDescLe a b → versionDescLe b c → versionDescLe a c := by
  intro a b c h1 h2
  rw [versionDescLe_iff] at h1 h2 ⊢
  exact SemVer.leb_trans _ _ _ h2 h1

theorem versionDescLe_total : ∀ a b : FicsitAppVersion,
    versionDescLe a b || versionDescLe b a := by
  intro a b
  rcases Bool.or_eq_true _ _ |>.mp (SemVer.leb_total b.version a.version) with h | h
  · exact Bool.or_eq_true _ _ |>.mpr (Or.inl ((versionDescLe_iff a b).mpr h))
  · exact Bool.or_eq_true _ _ |>.mpr (Or.inr ((versionDescLe_iff b a).mpr h))

/-- The version list a `VersionsSource` carries, when it carries one. -/
def VersionsSource.versionList : VersionsSource → Option (List FicsitAppVersion)
  | VersionsSource.cached (some (CacheData.versions vs)) => some vs
  | VersionsSource.overlay _ vs => some vs
  | _ => none

/-- The head of the in-place descending sort of a non-empty version list is
a member whose version bounds every version of the list from above. -/
theorem sortedHead_max (vs : List FicsitAppVersion) (hne : vs ≠ []) :
    ∃ r, (jsSort versionDescLe vs).head? = some r ∧ r ∈ vs ∧
      (∀ w ∈ vs, SemVer.leb w.version r.version) ∧
      (∀ v1 v2 : SemVer, v1 ∈ vs.map FicsitAppVersion.version →
        v2 ∈ vs.map FicsitAppVersion.version → SemVer.ltb v1 v2 →
        r.version ≠ v1) := by
  cases hh : (jsSort versionDescLe vs).head? with
  | none =>
      exfalso
      have hnil : jsSort versionDescLe vs = [] := List.head?_eq_none_iff.mp hh
      have hperm := jsSort_perm versionDescLe vs
      rw [hnil] at hperm
      exact hne hperm.symm.eq_nil
  | some r =>
      have hmax : ∀ w ∈ vs, SemVer.leb w.version r.version := by
        intro w hw
        exact (versionDescLe_iff r w).mp
          (jsSort_head_le versionDescLe versionDescLe_trans versionDescLe_total
            vs r w hh hw)
      refine ⟨r, rfl, jsSort_head_mem _ _ _ hh, hmax, ?_⟩
      intro v1 v2 h1 h2 hlt heq
      rcases List.mem_map.mp h2 with ⟨w2, hw2, hv2⟩
      have hle2 := hmax w2 hw2
      rw [hv2, heq] at hle2
      exact (SemVer.ltb_iff_not_leb v1 v2).mp hlt hle2

/-- C6: `getModLatestVersion` over any non-empty version list (cached or
overlay-served) returns a record of that list whose version bounds every
listed version from above under semantic-version precedence; in
particular, for any two listed version strings `v1 < v2`, it does not
return a `v1` record. -/
theorem C6_getModLatestVersion_highest (st : AppState) (now : Nat)
    (modID : String)
    (transport : Except TransportError (GraphQLResponse GetModVersionsData))
    (src : VersionsSource) (st' : AppState) (vs : List FicsitAppVersion)
    (hsrc : getModVersions st now modID transport = (Except.ok src, st'))
    (hvs : src.versionList = some vs) (hne : vs ≠ []) :
    ∃ r, (getModLatestVersion st now modID transport).1 = Except.ok (some r) ∧
      r ∈ vs ∧
      (∀ w ∈ vs, SemVer.leb w.version r.version) ∧
      (∀ v1 v2 : SemVer, v1 ∈ vs.map FicsitAppVersion.version →
        v2 ∈ vs.map FicsitAppVersion.version → SemVer.ltb v1 v2 →
        r.version ≠ v1) := by
  obtain ⟨r, hh, hmem, hmax, hnl⟩ := sortedHead_max vs hne
  cases src with
  | cached val =>
      cases val with
      | none => exact absurd hvs (by simp [VersionsSource.versionList])
      | some cd =>
          cases cd with
          | versions vs0 =>
              have hvv : vs0 = vs := by
                simpa [VersionsSource.versionList] using hvs
              subst hvv
              refine ⟨r, ?_, hmem, hmax, hnl⟩
              unfold getModLatestVersion
              rw [hsrc]
              simpa using hh
          | link u => exact absurd hvs (by simp [VersionsSource.versionList])
          | mods ms => exact absurd hvs (by simp [VersionsSource.versionList])
          | mod m => exact absurd hvs (by simp [VersionsSource.versionList])
          | smlVersions xs => exact absurd hvs (by simp [VersionsSource.versionList])
          | bootstrapperVersions xs => exact absurd hvs (by simp [VersionsSource.versionList])
  | overlay mid vs0 =>
      have hvv : vs0 = vs := by
        simpa [VersionsSource.versionList] using hvs
      subst hvv
      refine ⟨r, ?_, hmem, hmax, hnl⟩
      unfold getModLatestVersion
      rw [hsrc]
      simpa using hh

/-- Version-list fixture for the C6 witness (deliberately unsorted). -/
def c6List : List FicsitAppVersion :=
  [mkVersion "modA" { major := 1, minor := 0, patch := 0 },
   mkVersion "modA" { major := 2, minor := 1, patch := 0 },
   mkVersion "modA" { major := 2, minor := 0, patch := 5 }]

/-- State fixture for the C6 witness: the version list is already cached. -/
def c6State : AppState :=
  { useTempMods := false, tempMods := []
    cachedFetch := fun k =>
      if k = "getModVersions_modA" then
        some { time := 0, data := CacheData.versions c6List }
      else none }

/-- C6 witness: the latest-version theorem applied at a concrete cached
unsorted version list. -/
theorem C6_getModLatestVersion_highest_witness :
    ∃ r, (getModLatestVersion c6State 0 "modA" failT).1 = Except.ok (some r) ∧
      r ∈ c6List ∧
      (∀ w ∈ c6List, SemVer.leb w.version r.version) ∧
      (∀ v1 v2 : SemVer, v1 ∈ c6List.map FicsitAppVersion.version →
        v2 ∈ c6List.map FicsitAppVersion.version → SemVer.ltb v1 v2 →
        r.version ≠ v1) :=
  C6_getModLatestVersion_highest c6State 0 "modA" failT
    (VersionsSource.cached (some (CacheData.versions c6List))) c6State c6List
    rfl rfl (by decide)

/-- The pre-filtered-cache invariant: whatever the loader-versions cache key
holds satisfies the minimum supported floor. -/
def smlFloorInv (st : AppState) : Prop :=
  ∀ (t : Nat) (vs : List FicsitAppSMLVersion),
    st.cachedFetch "getSMLVersions" = some { time := t, data := CacheData.smlVersions vs } →
    ∀ v ∈ vs, SemVer.leb minSMLVersion v.version

theorem getAvailableSMLVersions_floor (st : AppState) (now : Nat)
    (transport : Except TransportError (GraphQLResponse GetSMLVersionsData))
    (vs : List FicsitAppSMLVersion) (st' : AppState)
    (hinv : smlFloorInv st)
    (h : getAvailableSMLVersions st now transport =
      (Except.ok (some (CacheData.smlVersions vs)), st')) :
    (∀ v ∈ vs, SemVer.leb minSMLVersion v.version) ∧ smlFloorInv st' := by
  simp only [getAvailableSMLVersions] at h
  by_cases hcp : cooldownPassed st now "getSMLVersions" = true
  · rw [if_pos hcp] at h
    cases transport with
    | error e => simp [fiscitApiQuery] at h
    | ok resp =>
      cases hre : resp.data.errors with
      | some e => simp [fiscitApiQuery, hre] at h
      | none =>
        cases hrp : resp.data.payload with
        | none => simp [fiscitApiQuery, hre, hrp] at h
        | some d =>
          simp only [fiscitApiQuery, hre, hrp, getCache_setCache,
            Prod.mk.injEq, Except.ok.injEq, Option.some.injEq,
            CacheData.smlVersions.injEq] at h
          obtain ⟨hvs, hst⟩ := h
          have hmemC : ∀ v ∈ (d.getSMLVersions.sml_versions.filter
              (fun version => Constraint.sat version.version
                (Constraint.ge { major := 2, minor := 0, patch := 0 }))).map
              (fun v => { v with date := coerceDate v.date }),
              SemVer.leb minSMLVersion v.version := by
            intro v hv
            rcases List.mem_map.mp hv with ⟨w, hw, hwv⟩
            have hsat := (List.mem_filter.mp hw).2
            simp only [Constraint.sat] at hsat
            have hvw : v.version = w.version := by rw [← hwv]
            rw [hvw]
            simpa [minSMLVersion] using hsat
          have hmem : ∀ v ∈ vs, SemVer.leb minSMLVersion v.version := by
            intro v hv
            rw [← hvs] at hv
            exact hmemC v hv
          refine ⟨hmem, ?_⟩
          intro t' vs' hentry v hv
          rw [← hst] at hentry
          simp only [setCache] at hentry
          rw [if_true] at hentry
          simp only [Option.some.injEq, FicsitAppFetch.mk.injEq,
            CacheData.smlVersions.injEq] at hentry
          rw [← hentry.2] at hv
          exact hmemC v hv
  · rw [if_neg hcp] at h
    simp only [Prod.mk.injEq, Except.ok.injEq] at h
    obtain ⟨hget, hst⟩ := h
    simp only [getCache, Option.map_eq_some'] at hget
    obtain ⟨f, hf, hfd⟩ := hget
    have hfe : st.cachedFetch "getSMLVersions" =
        some { time := f.time, data := CacheData.smlVersions vs } := by
      rw [hf]
      cases f
      simp only [FicsitAppFetch.mk.injEq, true_and]
      simpa using hfd
    have hmem := hinv f.time vs hfe
    exact ⟨hmem, hst ▸ hinv⟩

/-- C3: under the invariant that the loader cache is pre-filtered, every
loader-version query — `getAvailableSMLVersions`, `getSMLVersionInfo`,
`getLatestSMLVersion`, and the loader branch of
`findAllVersionsMatchingAll` — returns only versions at or above the
minimum supported floor, for any transported response content; the floor
is applied by the fetch-time filter before caching, and the invariant is
preserved by the cache writes of the fetch and of the in-place sort. -/
theorem C3_sml_floor (st : AppState) (now : Nat) (hinv : smlFloorInv st) :
    (∀ (transport : Except TransportError (GraphQLResponse GetSMLVersionsData))
        (vs : List FicsitAppSMLVersion) (st' : AppState),
      getAvailableSMLVersions st now transport =
        (Except.ok (some (CacheData.smlVersions vs)), st') →
      (∀ v ∈ vs, SemVer.leb minSMLVersion v.version) ∧ smlFloorInv st') ∧
    (∀ (transport : Except TransportError (GraphQLResponse GetSMLVersionsData))
        (ver : SemVer) (v : FicsitAppSMLVersion) (st' : AppState),
      getSMLVersionInfo st now ver transport = (Except.ok (some v), st') →
      SemVer.leb minSMLVersion v.version) ∧
    (∀ (transport : Except TransportError (GraphQLResponse GetSMLVersionsData))
        (v : FicsitAppSMLVersion) (st' : AppState),
      getLatestSMLVersion st now transport = (Except.ok (some v), st') →
      SemVer.leb minSMLVersion v.version ∧ smlFloorInv st') ∧
    (∀ (cs : List Constraint)
        (tSML : Except TransportError (GraphQLResponse GetSMLVersionsData))
        (tBoot : Except TransportError (GraphQLResponse GetBootstrapVersionsData))
        (tMod : Except TransportError (GraphQLResponse GetModData))
        (out : List SemVer) (st' : AppState),
      findAllVersionsMatchingAll st now SMLModID cs tSML tBoot tMod =
        (Except.ok out, st') →
      ∀ ver ∈ out, SemVer.leb minSMLVersion ver) := by
  refine ⟨?_, ?_, ?_, ?_⟩
  · intro transport vs st' h
    exact getAvailableSMLVersions_floor st now transport vs st' hinv h
  · intro transport ver v st' h
    rcases happ : getAvailableSMLVersions st now transport with ⟨r, stm⟩
    unfold getSMLVersionInfo at h
    rw [happ] at h
    match r, h with
    | Except.ok (some (CacheData.smlVersions vs)), h =>
      simp only [Prod.mk.injEq, Except.ok.injEq] at h
      have hfind := h.1
      have hv : v ∈ vs := List.mem_of_find?_eq_some hfind
      exact (getAvailableSMLVersions_floor st now transport vs stm hinv happ).1 v hv
  · intro transport v st' h
    rcases happ : getAvailableSMLVersions st now transport with ⟨r, stm⟩
    unfold getLatestSMLVersion at h
    rw [happ] at h
    match r, h with
    | Except.ok (some (CacheData.smlVersions vs)), h =>
      simp only [Prod.mk.injEq, Except.ok.injEq] at h
      obtain ⟨hhead, hst⟩ := h
      have hfloor := (getAvailableSMLVersions_floor st now transport vs stm hinv happ).1
      have hvmem : v ∈ vs := by
        have hm : v ∈ jsSort smlDescLe vs := by
          cases hs : jsSort smlDescLe vs with
          | nil => rw [hs] at hhead; simp at hhead
          | cons a as =>
            rw [hs] at hhead
            simp only [List.head?_cons, Option.some.injEq] at hhead
            exact hhead ▸ List.mem_cons_self a as
        exact (jsSort_perm smlDescLe vs).mem_iff.mp hm
      refine ⟨hfloor v hvmem, ?_⟩
      intro t' vs' hentry w hw
      rw [← hst] at hentry
      simp only [] at hentry
      rw [if_true] at hentry
      cases hstm : stm.cachedFetch "getSMLVersions" with
      | none => rw [hstm] at hentry; simp at hentry
      | some f =>
        rw [hstm] at hentry
        simp only [Option.map_some', Option.some.injEq,
          FicsitAppFetch.mk.injEq, CacheData.smlVersions.injEq] at hentry
        rw [← hentry.2] at hw
        exact hfloor w ((jsSort_perm smlDescLe vs).mem_iff.mp hw)
  · intro cs tSML tBoot tMod out st' h
    unfold findAllVersionsMatchingAll at h
    rw [if_pos rfl] at h
    rcases happ : getAvailableSMLVersions st now tSML with ⟨r, stm⟩
    rw [happ] at h
    match r, h with
    | Except.ok (some (CacheData.smlVersions vs)), h =>
      simp only [Prod.mk.injEq, Except.ok.injEq] at h
      intro ver hver
      rw [← h.1] at hver
      rcases List.mem_map.mp hver with ⟨w, hw, hwv⟩
      have hw1 := (List.mem_filter.mp (List.mem_of_mem_filter hw)).2
      simp only [Constraint.sat] at hw1
      rw [← hwv]
      exact hw1

/-- A minimal loader-version record fixture. -/
def mkSML (v : SemVer) : FicsitAppSMLVersion :=
  { id := "", version := v, satisfactory_version := 0
    stability := Stability.release, link := "", changelog := ""
    date := none, bootstrap_version := { major := 0, minor := 0, patch := 0 } }

/-- State fixture for the C3 witness: empty cache. -/
def c3State : AppState :=
  { useTempMods := false, tempMods := [], cachedFetch := emptyCache }

/-- Response fixture for the C3 witness: the server offers a loader version
below the floor and one above it. -/
def c3Resp : GraphQLResponse GetSMLVersionsData :=
  { data := { errors := none
              payload := some { getSMLVersions := { sml_versions :=
                [mkSML { major := 1, minor := 0, patch := 0 },
                 mkSML { major := 2, minor := 1, patch := 0 }] } } } }

/-- C3 witness: the floor theorem applied at a concrete empty-cache state
against a response containing a below-floor loader version — the fetch
caches only the floored list, and the loader branch of the matching query
returns only floored versions. -/
theorem C3_sml_floor_witness :
    (∀ v ∈ [mkSML { major := 2, minor := 1, patch := 0 }],
      SemVer.leb minSMLVersion v.version) ∧
    smlFloorInv (setCache c3State 0 "getSMLVersions"
      (CacheData.smlVersions [mkSML { major := 2, minor := 1, patch := 0 }])) ∧
    (∀ ver ∈ ([{ major := 2, minor := 1, patch := 0 }] : List SemVer),
      SemVer.leb minSMLVersion ver) := by
  have hinv0 : smlFloorInv c3State := by
    intro t vs hc
    simp [c3State, emptyCache] at hc
  have h1 := (C3_sml_floor c3State 0 hinv0).1 (Except.ok c3Resp)
    [mkSML { major := 2, minor := 1, patch := 0 }]
    (setCache c3State 0 "getSMLVersions"
      (CacheData.smlVersions [mkSML { major := 2, minor := 1, patch := 0 }])) rfl
  have h4 := (C3_sml_floor c3State 0 hinv0).2.2.2 [] (Except.ok c3Resp)
    failT failT [{ major := 2, minor := 1, patch := 0 }]
    (setCache c3State 0 "getSMLVersions"
      (CacheData.smlVersions [mkSML { major := 2, minor := 1, patch := 0 }])) rfl
  exact ⟨h1.1, h1.2, h4⟩

/-- C10: each latest-version accessor sorts the array it obtained from the
cache in place — after a cache-hit call, the cached payload under the
corresponding request key is the descending-sorted permutation (the entry's
timestamp untouched), and a subsequent cache-hit read of the same key
observes the sorted array, not the originally stored order. -/
theorem C10_latest_sorts_cache_in_place (st : AppState) (now now' : Nat)
    (modID : String) (t1 t2 t3 : Nat)
    (vs1 : List FicsitAppVersion) (vs2 : List FicsitAppSMLVersion)
    (vs3 : List FicsitAppBootstrapperVersion)
    (tM tM' : Except TransportError (GraphQLResponse GetModVersionsData))
    (tS tS' : Except TransportError (GraphQLResponse GetSMLVersionsData))
    (tB tB' : Except TransportError (GraphQLResponse GetBootstrapVersionsData))
    (h1 : st.cachedFetch ("getModVersions_" ++ modID) =
      some { time := t1, data := CacheData.versions vs1 })
    (h2 : st.cachedFetch "getSMLVersions" =
      some { time := t2, data := CacheData.smlVersions vs2 })
    (h3 : st.cachedFetch "getBootstrapperVersions" =
      some { time := t3, data := CacheData.bootstrapperVersions vs3 })
    (hf1 : now - t1 ≤ fetchCooldown) (hf2 : now - t2 ≤ fetchCooldown)
    (hf3 : now - t3 ≤ fetchCooldown)
    (hf1' : now' - t1 ≤ fetchCooldown) (hf2' : now' - t2 ≤ fetchCooldown)
    (hf3' : now' - t3 ≤ fetchCooldown) :
    ((getModLatestVersion st now modID tM).1 =
        Except.ok (jsSort versionDescLe vs1).head? ∧
      (getModLatestVersion st now modID tM).2.cachedFetch
          ("getModVersions_" ++ modID) =
        some { time := t1, data := CacheData.versions (jsSort versionDescLe vs1) } ∧
      (getModVersions (getModLatestVersion st now modID tM).2 now' modID tM').1 =
        Except.ok (VersionsSource.cached (some
          (CacheData.versions (jsSort versionDescLe vs1))))) ∧
    ((getLatestSMLVersion st now tS).1 =
        Except.ok (jsSort smlDescLe vs2).head? ∧
      (getLatestSMLVersion st now tS).2.cachedFetch "getSMLVersions" =
        some { time := t2, data := CacheData.smlVersions (jsSort smlDescLe vs2) } ∧
      (getAvailableSMLVersions (getLatestSMLVersion st now tS).2 now' tS').1 =
        Except.ok (some (CacheData.smlVersions (jsSort smlDescLe vs2)))) ∧
    ((getLatestBootstrapperVersion st now tB).1 =
        Except.ok (jsSort bootstrapperDescLe vs3).head? ∧
      (getLatestBootstrapperVersion st now tB).2.cachedFetch
          "getBootstrapperVersions" =
        some { time := t3
               data := CacheData.bootstrapperVersions (jsSort bootstrapperDescLe vs3) } ∧
      (getAvailableBootstrapperVersions
          (getLatestBootstrapperVersion st now tB).2 now' tB').1 =
        Except.ok (some (CacheData.bootstrapperVersions
          (jsSort bootstrapperDescLe vs3)))) := by
  have hcp1 : cooldownPassed st now ("getModVersions_" ++ modID) = false := by
    unfold cooldownPassed
    rw [h1]
    simp only [decide_eq_false_iff_not]
    omega
  have hcp2 : cooldownPassed st now "getSMLVersions" = false := by
    unfold cooldownPassed
    rw [h2]
    simp only [decide_eq_false_iff_not]
    omega
  have hcp3 : cooldownPassed st now "getBootstrapperVersions" = false := by
    unfold cooldownPassed
    rw [h3]
    simp only [decide_eq_false_iff_not]
    omega
  have hgv : getModVersions st now modID tM =
      (Except.ok (VersionsSource.cached (some (CacheData.versions vs1))), st) := by
    simp [getModVersions, hcp1, getCache, h1]
  have hsml : getAvailableSMLVersions st now tS =
      (Except.ok (some (CacheData.smlVersions vs2)), st) := by
    simp [getAvailableSMLVersions, hcp2, getCache, h2]
  have hboot : getAvailableBootstrapperVersions st now tB =
      (Except.ok (some (CacheData.bootstrapperVersions vs3)), st) := by
    simp [getAvailableBootstrapperVersions, hcp3, getCache, h3]
  have hentry1 : (getModLatestVersion st now modID tM).2.cachedFetch
      ("getModVersions_" ++ modID) =
      some { time := t1, data := CacheData.versions (jsSort versionDescLe vs1) } := by
    unfold getModLatestVersion
    rw [hgv]
    simp [h1]
  have hentry2 : (getLatestSMLVersion st now tS).2.cachedFetch "getSMLVersions" =
      some { time := t2, data := CacheData.smlVersions (jsSort smlDescLe vs2) } := by
    unfold getLatestSMLVersion
    rw [hsml]
    simp [h2]
  have hentry3 : (getLatestBootstrapperVersion st now tB).2.cachedFetch
      "getBootstrapperVersions" =
      some { time := t3
             data := CacheData.bootstrapperVersions (jsSort bootstrapperDescLe vs3) } := by
    unfold getLatestBootstrapperVersion
    rw [hboot]
    simp [h3]
  have hcp1' : cooldownPassed (getModLatestVersion st now modID tM).2 now'
      ("getModVersions_" ++ modID) = false := by
    unfold cooldownPassed
    rw [hentry1]
    simp only [decide_eq_false_iff_not]
    omega
  have hcp2' : cooldownPassed (getLatestSMLVersion st now tS).2 now'
      "getSMLVersions" = false := by
    unfold cooldownPassed
    rw [hentry2]
    simp only [decide_eq_false_iff_not]
    omega
  have hcp3' : cooldownPassed (getLatestBootstrapperVersion st now tB).2 now'
      "getBootstrapperVersions" = false := by
    unfold cooldownPassed
    rw [hentry3]
    simp only [decide_eq_false_iff_not]
    omega
  refine ⟨⟨?_, hentry1, ?_⟩, ⟨?_, hentry2, ?_⟩, ⟨?_, hentry3, ?_⟩⟩
  · unfold getModLatestVersion
    rw [hgv]
  · simp [getModVersions, hcp1', getCache, hentry1]
  · unfold getLatestSMLVersion
    rw [hsml]
  · simp [getAvailableSMLVersions, hcp2', getCache, hentry2]
  · unfold getLatestBootstrapperVersion
    rw [hboot]
  · simp [getAvailableBootstrapperVersions, hcp3', getCache, hentry3]

/-- A minimal bootstrapper-version record fixture. -/
def mkBoot (v : SemVer) : FicsitAppBootstrapperVersion :=
  { id := "", version := v, satisfactory_version := 0
    stability := Stability.release, link := "", changelog := "", date := none }

/-- Cached (deliberately unsorted) mod version list for the C10 witness. -/
def c10List1 : List FicsitAppVersion :=
  [mkVersion "modA" { major := 1, minor := 0, patch := 0 },
   mkVersion "modA" { major := 2, minor := 0, patch := 0 }]

/-- Cached loader version list for the C10 witness. -/
def c10List2 : List FicsitAppSMLVersion :=
  [mkSML { major := 2, minor := 0, patch := 0 },
   mkSML { major := 2, minor := 1, patch := 0 }]

/-- Cached bootstrapper version list for the C10 witness. -/
def c10List3 : List FicsitAppBootstrapperVersion :=
  [mkBoot { major := 1, minor := 0, patch := 0 },
   mkBoot { major := 1, minor := 1, patch := 0 }]

/-- State fixture for the C10 witness: all three version collections
freshly cached, in ascending (unsorted-for-the-accessor) order. -/
def c10State : AppState :=
  { useTempMods := false, tempMods := []
    cachedFetch := fun k =>
      if k = "getModVersions_modA" then
        some { time := 0, data := CacheData.versions c10List1 }
      else if k = "getSMLVersions" then
        some { time := 0, data := CacheData.smlVersions c10List2 }
      else if k = "getBootstrapperVersions" then
        some { time := 0, data := CacheData.bootstrapperVersions c10List3 }
      else none }

/-- C10 witness: the in-place-sort theorem applied at the concrete state —
each accessor leaves the cached payload sorted (timestamps untouched), and
a later cache-hit read sees the sorted list. -/
theorem C10_latest_sorts_cache_in_place_witness :
    (getModLatestVersion c10State 0 "modA" failT).2.cachedFetch
        "getModVersions_modA" =
      some { time := 0, data := CacheData.versions (jsSort versionDescLe c10List1) } ∧
    (getLatestSMLVersion c10State 0 failT).2.cachedFetch "getSMLVersions" =
      some { time := 0, data := CacheData.smlVersions (jsSort smlDescLe c10List2) } ∧
    (getLatestBootstrapperVersion c10State 0 failT).2.cachedFetch
        "getBootstrapperVersions" =
      some { time := 0
             data := CacheData.bootstrapperVersions (jsSort bootstrapperDescLe c10List3) } ∧
    (getModVersions (getModLatestVersion c10State 0 "modA" failT).2 1000 "modA"
        failT).1 =
      Except.ok (VersionsSource.cached (some
        (CacheData.versions (jsSort versionDescLe c10List1)))) := by
  have h := C10_latest_sorts_cache_in_place c10State 0 1000 "modA" 0 0 0
    c10List1 c10List2 c10List3 failT failT failT failT failT failT
    rfl rfl rfl (by decide) (by decide) (by decide) (by decide) (by decide)
    (by decide)
  exact ⟨h.1.2.1, h.2.1.2.1, h.2.2.2.1, h.1.2.2⟩
